import Mathlib

/-!
# Verification of the airadar trend-detection engine

A shallow embedding, in Lean 4, of the algorithmic core of the airadar
repository (package `trend`, file `engine.go`, plus the store operations the
engine consumes).  The Go code is translated as follows:

* `float64` arithmetic is modelled by `ℚ`.  Every comparison the engine
  performs on floats (the `>= 0.3` similarity threshold, the `> 100` clamps,
  `> 1000` / `> 100` / `> 10` branches, `< 0.1` elapsed-time guard) compares
  quantities whose float images round to the same side of the literal for all
  realistic magnitudes, so the rational model is faithful.
* `time.Time` is modelled by a rational number of hours since an arbitrary
  epoch; `t2.Sub(t1).Hours()` becomes plain subtraction.
* Go maps used as sets (`map[string]bool`) are modelled by `Finset String`
  via `List.toFinset`.
* fallible store/network calls return `Except String α`.
* `unicode.IsLetter` / `unicode.IsDigit` are modelled by `Char.isAlpha` /
  `Char.isDigit` (the ASCII fragment; no claim depends on the exact
  character class).
-/

namespace Airadar

/-- `source.Item` (pkg/source): the fields the trend engine reads.
`Source` is the Go string-typed enum `SourceType`; `Score` is a Go `int`. -/
structure Item where
  id : String
  source : String
  title : String
  score : Int
deriving DecidableEq, Repr

/-- `store.Snapshot`: a timestamped score reading for one item.
`checkedAt` is in hours since the epoch (see the module comment). -/
structure Snapshot where
  itemId : String
  score : Int
  comments : Int
  checkedAt : ℚ
deriving DecidableEq, Repr

/-- `store.Trend`: the fields `Detect` fills in (timestamps are carried
abstractly as rationals; `id`/`alerted` are irrelevant to the claims). -/
structure Trend where
  topic : String
  score : ℚ
  sourceCount : Nat
  itemIds : List String
deriving DecidableEq, Repr

/-! ## 4.1 Similarity tokenizer (`significantTokens`, `jaccardSimilarity`) -/

/-- The stopword list of `significantTokens` (engine.go). -/
def stopwords : List String :=
  ["a", "an", "the", "and", "or",
   "but", "in", "on", "at", "to",
   "for", "of", "with", "by", "from",
   "is", "are", "was", "were", "be",
   "been", "being", "have", "has", "had",
   "do", "does", "did", "will", "would",
   "could", "should", "may", "might",
   "this", "that", "these", "those",
   "it", "its", "i", "we", "you",
   "he", "she", "they", "my", "your",
   "how", "what", "when", "where", "why",
   "not", "no", "new", "just", "about",
   "up", "out", "if", "so", "can",
   "all", "more", "also", "than", "very"]

/-- The rune class kept by `strings.FieldsFunc`'s separator predicate:
letters and digits survive, everything else separates. -/
def isTokenChar (c : Char) : Bool := c.isAlpha || c.isDigit

/-- `strings.FieldsFunc(s, f)`: split on separator runes, dropping empty
fields. -/
def fieldsFunc (s : List Char) : List (List Char) :=
  (s.splitOnP (fun c => !(isTokenChar c))).filter (fun w => w ≠ [])

/-- `significantTokens` (engine.go): lowercase, split on non-alphanumeric
runes, keep words of length ≥ 2 that are not stopwords.  (`strings.ToLower`
is modelled per rune by `Char.toLower`.) -/
def significantTokens (title : String) : List String :=
  let words := (fieldsFunc (title.toList.map Char.toLower)).map List.asString
  words.filter (fun w => 2 ≤ w.length && !(stopwords.contains w))

/-- `jaccardSimilarity` (engine.go): Jaccard index of the two token slices
viewed as sets; `0` if either slice is empty or the union is empty. -/
def jaccardSimilarity (a b : List String) : ℚ :=
  if a.length = 0 ∨ b.length = 0 then 0
  else
    let setA := a.toFinset
    let setB := b.toFinset
    let intersection := (setA ∩ setB).card
    let unionSize := setA.card + setB.card - intersection
    if unionSize = 0 then 0
    else (intersection : ℚ) / (unionSize : ℚ)

/-! ## 4.2 Clustering module (`clusterItems`) -/

instance : Inhabited Item := ⟨⟨"", "", "", 0⟩⟩

/-- One `union(i, j)` of `clusterItems`: the Go indices are always in
bounds; an out-of-bounds pair is a no-op so the Lean function stays total. -/
def ufUnion (uf : Batteries.UnionFind) (i j : Nat) : Batteries.UnionFind :=
  if h : i < uf.size ∧ j < uf.size then uf.union ⟨i, h.1⟩ ⟨j, h.2⟩ else uf

/-- The fresh union-find of `clusterItems` (`uf[i].parent = i` for `i < n`). -/
def mkUF : Nat → Batteries.UnionFind
  | 0 => Batteries.UnionFind.empty
  | n + 1 => (mkUF n).push

/-- The pairs visited by the all-pairs loop (`i` ascending, `j` in `(i, n)`). -/
def allPairs (n : Nat) : List (Nat × Nat) :=
  (List.range n).flatMap
    (fun i => (((List.range n).filter (fun j => i < j)).map (fun j => (i, j))))

/-- The token set the engine computes for the `i`-th item's title. -/
def tokensOf (items : List Item) (i : Nat) : List String :=
  significantTokens (items.getD i default).title

/-- The union-find state after the all-pairs loop of `clusterItems`:
`union(i, j)` for every pair with Jaccard similarity ≥ 0.3. -/
def clusterUF (items : List Item) : Batteries.UnionFind :=
  (allPairs items.length).foldl
    (fun uf p =>
      if jaccardSimilarity (tokensOf items p.1) (tokensOf items p.2) ≥ 3/10
      then ufUnion uf p.1 p.2 else uf)
    (mkUF items.length)

/-- `groups` in `clusterItems`: the indices `0..n-1` grouped by union-find
root.  Go iterates the `groups` map in unspecified order; here the groups
are listed in order of first appearance of their root. -/
def clusterIndices (items : List Item) : List (List Nat) :=
  let n := items.length
  let uf := clusterUF items
  (((List.range n).map uf.rootD).dedup).map
    (fun r => (List.range n).filter (fun i => uf.rootD i = r))

/-- `trend.TopicCluster`: the Go `Sources map[SourceType]bool` becomes a
`Finset String`. -/
structure TopicCluster where
  topic : String
  items : List Item
  sources : Finset String
  totalScore : Int
deriving DecidableEq

/-- The best-scoring member picked by the topic-naming loop of
`clusterItems` (only a strict improvement replaces `best`, so ties keep
the earlier item; the loop starts from the group's first item). -/
def pickBest (l : List Item) : Item :=
  l.foldl (fun best it => if it.score > best.score then it else best) (l.headD default)

/-- Building one `TopicCluster` from a group of indices (`clusterItems`). -/
def mkCluster (items : List Item) (idxs : List Nat) : TopicCluster :=
  let cItems := idxs.map (fun i => items.getD i default)
  { topic := (pickBest cItems).title
    items := cItems
    sources := (cItems.map Item.source).toFinset
    totalScore := (cItems.map Item.score).sum }

/-- `clusterItems` (engine.go): union-find over similar pairs, then one
cluster per root. -/
def clusterItems (items : List Item) : List TopicCluster :=
  (clusterIndices items).map (mkCluster items)

/-- Two positions end up in the same topic cluster. -/
def inSameCluster (items : List Item) (i j : Nat) : Prop :=
  ∃ g ∈ clusterIndices items, i ∈ g ∧ j ∈ g

/-- The pairwise-similarity relation of the spec: both positions are in
range and the title-token Jaccard similarity reaches the 0.3 threshold. -/
def simRel (items : List Item) (x y : Nat) : Prop :=
  x < items.length ∧ y < items.length ∧
    jaccardSimilarity (tokensOf items x) (tokensOf items y) ≥ 3/10

/-- The symmetric closure of membership in a pair list. -/
def edgeRel (L : List (Nat × Nat)) (a b : Nat) : Prop :=
  (a, b) ∈ L ∨ (b, a) ∈ L

/-- The pairs that pass the similarity test in the all-pairs loop. -/
def simPairs (items : List Item) : List (Nat × Nat) :=
  (allPairs items.length).filter
    (fun p => decide (jaccardSimilarity (tokensOf items p.1) (tokensOf items p.2) ≥ 3/10))

/-! ## 4.3 Velocity calculator (`itemVelocity`, `SQLiteStore.GetSnapshots`) -/

instance : Inhabited Snapshot := ⟨⟨"", 0, 0, 0⟩⟩

/-- `SQLiteStore.GetSnapshots` (migrations.go): the rows with
`checked_at >= since`, ordered by `checked_at` ascending. -/
def GetSnapshots (history : List Snapshot) (since : ℚ) : List Snapshot :=
  (history.filter (fun s => decide (since ≤ s.checkedAt))).mergeSort
    (fun a b => decide (a.checkedAt ≤ b.checkedAt))

/-- `itemVelocity` (engine.go), as a function of the snapshot query's
result: 0 on a store error, fewer than two snapshots, or an elapsed time
under 0.1 h; otherwise score delta over elapsed hours (no flooring). -/
def itemVelocity (snapsResult : Except String (List Snapshot)) : ℚ :=
  match snapsResult with
  | .error _ => 0
  | .ok snaps =>
    if snaps.length < 2 then 0
    else
      let first := snaps.headD default
      let last := snaps.getLastD default
      let hours := last.checkedAt - first.checkedAt
      if hours < 1/10 then 0
      else ((last.score - first.score : Int) : ℚ) / hours

/-! ## 4.4 Scoring module (`scoreCluster`) -/

/-- The `crossScore` block of `scoreCluster`: 20 per distinct source,
capped at 100. -/
def crossScore (cluster : TopicCluster) : ℚ :=
  let c := (cluster.sources.card : ℚ) * 20
  if c > 100 then 100 else c

/-- The `velocityScore` block of `scoreCluster`: the accumulator starts at
0 and takes an item's velocity only when strictly larger, then is capped
at 100.  The per-item velocity lookup is abstracted as `vel`. -/
def velocityScore (vel : Item → ℚ) (cluster : TopicCluster) : ℚ :=
  let v := cluster.items.foldl (fun acc it => if vel it > acc then vel it else acc) 0
  if v > 100 then 100 else v

/-- The piecewise scale applied to the mean raw score inside the
`absoluteScore` block of `scoreCluster`. -/
def absScale (avg : ℚ) : ℚ :=
  if avg > 1000 then 100
  else if avg > 100 then 60 + (avg - 100) / 900 * 40
  else if avg > 10 then 20 + (avg - 10) / 90 * 40
  else avg / 10 * 20

/-- The `absoluteScore` block of `scoreCluster`: the piecewise scale of the
cluster's mean raw score, or 0 when the total score is not positive. -/
def absoluteScore (cluster : TopicCluster) : ℚ :=
  if cluster.totalScore > 0 then
    absScale ((cluster.totalScore : ℚ) / (cluster.items.length : ℚ))
  else 0

/-- The engine's weight configuration. -/
structure Weights where
  velocityWeight : ℚ
  crossSourceWeight : ℚ
  absoluteWeight : ℚ
deriving DecidableEq, Repr

/-- The default-substitution rule of `NewEngine`: if the three configured
weights sum to zero, the defaults 0.3 / 0.5 / 0.2 are used. -/
def NewEngineWeights (velocityW crossSourceW absoluteW : ℚ) : Weights :=
  if velocityW + crossSourceW + absoluteW = 0 then ⟨3/10, 1/2, 1/5⟩
  else ⟨velocityW, crossSourceW, absoluteW⟩

/-- `scoreCluster` (engine.go): the weighted sum of the three component
blocks. -/
def scoreCluster (w : Weights) (vel : Item → ℚ) (cluster : TopicCluster) : ℚ :=
  crossScore cluster * w.crossSourceWeight +
    velocityScore vel cluster * w.velocityWeight +
    absoluteScore cluster * w.absoluteWeight

/-! ## 4.5 / 6 Detect, the LLM pre-filter and the store interface -/

/-- `trend.LLMResult`: the per-item fields the filter uses (`reason` is
never read by `Detect`). -/
structure LLMResult where
  id : String
  score : Int
  topic : String
deriving DecidableEq, Repr

/-- The `resultMap` lookup of `llmFilter` (`resultMap[r.ID] = r` in a loop,
so a later result with the same ID overwrites an earlier one). -/
def lookupResult (results : List LLMResult) (id0 : String) : Option LLMResult :=
  (results.filter (fun r => r.id = id0)).getLast?

/-- `Engine.llmFilter` (engine.go): returns the surviving (retitled) items
and the error surfaced for logging.  The external `EvaluateItems` call is
abstracted as `eval`; on its error the original items are returned. -/
def llmFilter (eval : List Item → Except String (List LLMResult))
    (items : List Item) : List Item × Option String :=
  match eval items with
  | .error e => (items, some e)
  | .ok results =>
    if results.length = 0 then ([], none)
    else
      (items.filterMap (fun it =>
        match lookupResult results it.id with
        | some r => some (if r.topic ≠ "" then { it with title := r.topic } else it)
        | none => none), none)

/-- The store operations one `Detect` cycle consumes, each recorded as the
result that call would produce: `ListItems` (last 24 h, limit 1000),
`ClearTrends`, `GetSnapshots` (per item ID, 6-hour window) and
`UpsertTrend`. -/
structure Store where
  listItemsResult : Except String (List Item)
  clearTrendsResult : Except String Unit
  getSnapshotsResult : String → Except String (List Snapshot)
  upsertTrendResult : Trend → Except String Unit

/-- `trend.Engine`: store, the three scoring weights, and the optional LLM
evaluator. -/
structure Engine where
  store : Store
  weights : Weights
  llm : Option (List Item → Except String (List LLMResult))

/-- The per-item velocity `scoreCluster` uses: `itemVelocity` applied to
the store's snapshot query result for the item's ID. -/
def engineVel (e : Engine) (it : Item) : ℚ :=
  itemVelocity (e.store.getSnapshotsResult it.id)

/-- The trend record built for one cluster inside `Detect`'s loop. -/
def mkTrend (e : Engine) (cluster : TopicCluster) : Trend :=
  { topic := cluster.topic
    score := scoreCluster e.weights (engineVel e) cluster
    sourceCount := cluster.sources.card
    itemIds := cluster.items.map Item.id }

/-- The upsert loop of `Detect`: a trend whose upsert fails is logged and
skipped; the others are collected in order. -/
def upsertLoop (e : Engine) (clusters : List TopicCluster) : List Trend :=
  clusters.filterMap (fun cluster =>
    match e.store.upsertTrendResult (mkTrend e cluster) with
    | .error _ => none
    | .ok _ => some (mkTrend e cluster))

/-- The final `sort.Slice(trends, Score >)` of `Detect`: descending by
score.  `sort.Slice` is unstable, so only the ordering is specified; a
merge sort realises it. -/
def sortTrends (trends : List Trend) : List Trend :=
  trends.mergeSort (fun a b => decide (b.score ≤ a.score))

/-- The item set used after the optional LLM stage of `Detect`. -/
def detectItems (e : Engine) (items0 : List Item) : List Item :=
  match e.llm with
  | none => items0
  | some eval => (llmFilter eval items0).1

/-- `Engine.Detect` (engine.go): one full detection cycle. -/
def Detect (e : Engine) : Except String (List Trend) :=
  match e.store.listItemsResult with
  | .error err => .error ("list recent items: " ++ err)
  | .ok items0 =>
    if items0.length = 0 then .ok []
    else
      match e.store.clearTrendsResult with
      | .error err => .error ("clear trends: " ++ err)
      | .ok _ =>
        let items := detectItems e items0
        if items.length = 0 then .ok []
        else .ok (sortTrends (upsertLoop e (clusterItems items)))

end Airadar

/-- The three-item scenario of the spec (§8): two GPT-5 items and one
weather item. -/
def demoItems : List Airadar.Item :=
  [⟨"hackernews:1", "hackernews", "OpenAI releases GPT-5", 200⟩,
   ⟨"reddit:2", "reddit", "GPT-5 launched by OpenAI", 150⟩,
   ⟨"youtube:3", "youtube", "Weather forecast for Tuesday", 10⟩]

/-- A one-item cluster whose only item has a negative velocity. -/
def negVelCluster : Airadar.TopicCluster :=
  { topic := "declining story"
    items := [⟨"hackernews:9", "hackernews", "declining story", 50⟩]
    sources := {"hackernews"}
    totalScore := 50 }

/-- A two-snapshot history with a declining score: 50 at hour 0, then 10
at hour 2. -/
def demoHistory : List Airadar.Snapshot :=
  [⟨"youtube:v", 50, 0, 0⟩, ⟨"youtube:v", 10, 0, 2⟩]

/-- A two-item cluster with total score 200, so the mean raw score is
exactly 100. -/
def meanHundredCluster : Airadar.TopicCluster :=
  { topic := "demo"
    items := [⟨"hackernews:5", "hackernews", "demo", 120⟩,
              ⟨"reddit:6", "reddit", "demo", 80⟩]
    sources := {"hackernews", "reddit"}
    totalScore := 200 }

/-- A store whose reads and writes all succeed, holding one item. -/
def oneItem : Airadar.Item := ⟨"hackernews:1", "hackernews", "OpenAI releases GPT-5", 200⟩

/-- A store with no items at all and no failures. -/
def emptyStore : Airadar.Store :=
  { listItemsResult := .ok []
    clearTrendsResult := .ok ()
    getSnapshotsResult := fun _ => .ok []
    upsertTrendResult := fun _ => .ok () }

/-- An engine over the empty store, LLM disabled. -/
def emptyEngine : Airadar.Engine :=
  { store := emptyStore, weights := ⟨3/10, 1/2, 1/5⟩, llm := none }

/-- A fully healthy one-item store. -/
def okStore : Airadar.Store :=
  { listItemsResult := .ok [oneItem]
    clearTrendsResult := .ok ()
    getSnapshotsResult := fun _ => .ok []
    upsertTrendResult := fun _ => .ok () }

/-- An engine whose LLM evaluator succeeds but returns zero results. -/
def zeroResultEngine : Airadar.Engine :=
  { store := okStore, weights := ⟨3/10, 1/2, 1/5⟩, llm := some (fun _ => .ok []) }

/-- An engine whose LLM evaluation call fails with an HTTP error. -/
def failingLLMEngine : Airadar.Engine :=
  { store := okStore, weights := ⟨3/10, 1/2, 1/5⟩,
    llm := some (fun _ => .error "llm status 500") }

/-- A store that lists one item and clears trends fine but fails every
snapshot read and every trend write. -/
def failingRWStore : Airadar.Store :=
  { listItemsResult := .ok [oneItem]
    clearTrendsResult := .ok ()
    getSnapshotsResult := fun _ => .error "db locked"
    upsertTrendResult := fun _ => .error "db locked" }

/-- The engine over the failing read/write store. -/
def failingRWEngine : Airadar.Engine :=
  { store := failingRWStore, weights := ⟨3/10, 1/2, 1/5⟩, llm := none }

/-- A store whose item listing fails outright. -/
def deadListStore : Airadar.Store :=
  { listItemsResult := .error "disk io"
    clearTrendsResult := .ok ()
    getSnapshotsResult := fun _ => .ok []
    upsertTrendResult := fun _ => .ok () }

/-- The engine over the dead-listing store. -/
def deadListEngine : Airadar.Engine :=
  { store := deadListStore, weights := ⟨3/10, 1/2, 1/5⟩, llm := none }

namespace Airadar

theorem jaccardSimilarity_comm (a b : List String) :
    jaccardSimilarity a b = jaccardSimilarity b a := by
  simp only [jaccardSimilarity, Finset.inter_comm a.toFinset b.toFinset,
    Nat.add_comm a.toFinset.card b.toFinset.card, or_comm]

theorem jaccardSimilarity_empty_left (b : List String) :
    jaccardSimilarity [] b = 0 := by
  unfold jaccardSimilarity
  simp

theorem jaccardSimilarity_self (a : List String) (ha : a ≠ []) :
    jaccardSimilarity a a = 1 := by
  unfold jaccardSimilarity
  have hcard : a.toFinset.card ≠ 0 := by
    simp only [ne_eq, Finset.card_eq_zero, List.toFinset_eq_empty_iff]
    exact ha
  have hlen : ¬ (a.length = 0 ∨ a.length = 0) := by
    simp only [List.length_eq_zero, or_self]
    exact ha
  rw [if_neg hlen]
  simp only [Finset.inter_self]
  rw [if_neg (by omega)]
  rw [Nat.add_sub_cancel]
  exact div_self (by exact_mod_cast hcard)

/-! ### Union-find facts -/

theorem size_mkUF (n : Nat) : (mkUF n).size = n := by
  induction n with
  | zero => rfl
  | succ n ih =>
    show ((mkUF n).push).size = n + 1
    simp only [Batteries.UnionFind.size, Batteries.UnionFind.arr_push, Array.size_push, ih]

theorem equiv_mkUF (n a b : Nat) : (mkUF n).Equiv a b ↔ a = b := by
  induction n with
  | zero => exact Batteries.UnionFind.equiv_empty
  | succ n ih =>
    show ((mkUF n).push).Equiv a b ↔ a = b
    rw [Batteries.UnionFind.equiv_push]
    exact ih

theorem size_union (self : Batteries.UnionFind) (x y : Fin self.size) :
    (self.union x y).size = self.size := by
  unfold Batteries.UnionFind.union
  split
  simp only [Batteries.UnionFind.link, Batteries.UnionFind.size,
    Batteries.UnionFind.linkAux_size, Batteries.UnionFind.find_size]
  assumption

theorem size_ufUnion (uf : Batteries.UnionFind) (i j : Nat) :
    (ufUnion uf i j).size = uf.size := by
  unfold ufUnion
  split
  · exact size_union ..
  · rfl

theorem equiv_ufUnion (uf : Batteries.UnionFind) (i j : Nat)
    (hi : i < uf.size) (hj : j < uf.size) (a b : Nat) :
    (ufUnion uf i j).Equiv a b ↔
      uf.Equiv a b ∨ (uf.Equiv a i ∧ uf.Equiv j b) ∨ (uf.Equiv a j ∧ uf.Equiv i b) := by
  unfold ufUnion
  rw [dif_pos ⟨hi, hj⟩]
  exact Batteries.UnionFind.equiv_union

/-- An `EqvGen` can be collapsed along a map of its generators into
another equivalence closure. -/
theorem eqvGen_lift {α : Type} {R S : α → α → Prop}
    (h : ∀ x y, R x y → Relation.EqvGen S x y) :
    ∀ {a b : α}, Relation.EqvGen R a b → Relation.EqvGen S a b := by
  intro a b hab
  induction hab with
  | rel x y hxy => exact h x y hxy
  | refl x => exact Relation.EqvGen.refl x
  | symm x y _ ih => exact Relation.EqvGen.symm x y ih
  | trans x y z _ _ ih1 ih2 => exact Relation.EqvGen.trans x y z ih1 ih2

/-- Folding `union` over a list of in-bounds pairs realises exactly the
equivalence closure of the initial relation together with the pair edges. -/
theorem equiv_foldl_ufUnion (L : List (Nat × Nat)) :
    ∀ uf : Batteries.UnionFind, (∀ p ∈ L, p.1 < uf.size ∧ p.2 < uf.size) →
    ∀ a b : Nat,
      (L.foldl (fun uf p => ufUnion uf p.1 p.2) uf).Equiv a b ↔
        Relation.EqvGen (fun x y => uf.Equiv x y ∨ edgeRel L x y) a b := by
  induction L with
  | nil =>
    intro uf _ a b
    simp only [List.foldl_nil]
    constructor
    · intro h
      exact Relation.EqvGen.rel a b (Or.inl h)
    · intro h
      induction h with
      | rel x y hxy =>
        rcases hxy with h | h | h
        · exact h
        · simp at h
        · simp at h
      | refl x => exact Batteries.UnionFind.Equiv.rfl
      | symm x y _ ih => exact ih.symm
      | trans x y z _ _ ih1 ih2 => exact ih1.trans ih2
  | cons p L ih =>
    intro uf hb a b
    have hp := hb p (List.mem_cons_self p L)
    have hb' : ∀ q ∈ L, q.1 < (ufUnion uf p.1 p.2).size ∧ q.2 < (ufUnion uf p.1 p.2).size := by
      intro q hq
      rw [size_ufUnion]
      exact hb q (List.mem_cons_of_mem p hq)
    rw [List.foldl_cons, ih (ufUnion uf p.1 p.2) hb' a b]
    constructor
    · refine eqvGen_lift ?_
      intro x y hxy
      rcases hxy with h | h
      · rw [equiv_ufUnion uf p.1 p.2 hp.1 hp.2] at h
        rcases h with h | ⟨h1, h2⟩ | ⟨h1, h2⟩
        · exact Relation.EqvGen.rel x y (Or.inl h)
        · refine Relation.EqvGen.trans x p.1 y (Relation.EqvGen.rel _ _ (Or.inl h1)) ?_
          refine Relation.EqvGen.trans p.1 p.2 y ?_ (Relation.EqvGen.rel _ _ (Or.inl h2))
          exact Relation.EqvGen.rel _ _ (Or.inr (Or.inl (List.mem_cons_self p L)))
        · refine Relation.EqvGen.trans x p.2 y (Relation.EqvGen.rel _ _ (Or.inl h1)) ?_
          refine Relation.EqvGen.trans p.2 p.1 y ?_ (Relation.EqvGen.rel _ _ (Or.inl h2))
          exact Relation.EqvGen.rel _ _ (Or.inr (Or.inr (List.mem_cons_self p L)))
      · rcases h with h | h
        · exact Relation.EqvGen.rel x y (Or.inr (Or.inl (List.mem_cons_of_mem p h)))
        · exact Relation.EqvGen.rel x y (Or.inr (Or.inr (List.mem_cons_of_mem p h)))
    · refine eqvGen_lift ?_
      intro x y hxy
      rcases hxy with h | h | h
      · exact Relation.EqvGen.rel x y
          (Or.inl ((equiv_ufUnion uf p.1 p.2 hp.1 hp.2 x y).mpr (Or.inl h)))
      · rcases List.mem_cons.mp h with h | h
        · have hx : p.1 = x := by rw [← h]
          have hy : p.2 = y := by rw [← h]
          subst hx; subst hy
          exact Relation.EqvGen.rel _ _
            (Or.inl ((equiv_ufUnion uf p.1 p.2 hp.1 hp.2 p.1 p.2).mpr
              (Or.inr (Or.inl ⟨Batteries.UnionFind.Equiv.rfl, Batteries.UnionFind.Equiv.rfl⟩))))
        · exact Relation.EqvGen.rel x y (Or.inr (Or.inl h))
      · rcases List.mem_cons.mp h with h | h
        · have hx : p.1 = y := by rw [← h]
          have hy : p.2 = x := by rw [← h]
          subst hx; subst hy
          exact Relation.EqvGen.rel _ _
            (Or.inl ((equiv_ufUnion uf p.1 p.2 hp.1 hp.2 p.2 p.1).mpr
              (Or.inr (Or.inr ⟨Batteries.UnionFind.Equiv.rfl, Batteries.UnionFind.Equiv.rfl⟩))))
        · exact Relation.EqvGen.rel x y (Or.inr (Or.inr h))

/-- A fold whose step fires conditionally is the unconditional fold over
the filtered list. -/
theorem foldl_ite_eq_foldl_filter {α β : Type} (g : β → α → β) (c : α → Prop)
    [DecidablePred c] :
    ∀ (L : List α) (init : β),
      L.foldl (fun b a => if c a then g b a else b) init
        = (L.filter (fun a => decide (c a))).foldl g init := by
  intro L
  induction L with
  | nil => intro init; rfl
  | cons a L ih =>
    intro init
    by_cases h : c a
    · rw [List.foldl_cons, if_pos h, List.filter_cons_of_pos (by simpa using h),
        List.foldl_cons, ih]
    · rw [List.foldl_cons, if_neg h, List.filter_cons_of_neg (by simpa using h), ih]

theorem clusterUF_eq_foldl_simPairs (items : List Item) :
    clusterUF items
      = (simPairs items).foldl (fun uf p => ufUnion uf p.1 p.2) (mkUF items.length) := by
  unfold clusterUF simPairs
  exact foldl_ite_eq_foldl_filter _ _ _ _

theorem mem_allPairs (n i j : Nat) : (i, j) ∈ allPairs n ↔ i < j ∧ j < n := by
  simp only [allPairs, List.mem_flatMap, List.mem_map, List.mem_filter, List.mem_range,
    Prod.mk.injEq, decide_eq_true_eq]
  constructor
  · rintro ⟨a, ha, b, ⟨hb, hab⟩, rfl, rfl⟩
    exact ⟨hab, hb⟩
  · rintro ⟨hij, hj⟩
    exact ⟨i, lt_trans hij hj, j, ⟨hj, hij⟩, rfl, rfl⟩

theorem mem_simPairs (items : List Item) (i j : Nat) :
    (i, j) ∈ simPairs items ↔
      i < j ∧ j < items.length ∧
        jaccardSimilarity (tokensOf items i) (tokensOf items j) ≥ 3/10 := by
  unfold simPairs
  rw [List.mem_filter, mem_allPairs]
  simp only [decide_eq_true_eq]
  tauto

theorem equiv_clusterUF (items : List Item) (a b : Nat) :
    (clusterUF items).Equiv a b ↔ Relation.EqvGen (simRel items) a b := by
  have hbound : ∀ p ∈ simPairs items,
      p.1 < (mkUF items.length).size ∧ p.2 < (mkUF items.length).size := by
    intro p hp
    obtain ⟨h1, h2, _⟩ := (mem_simPairs items p.1 p.2).mp hp
    rw [size_mkUF]
    exact ⟨lt_trans h1 h2, h2⟩
  rw [clusterUF_eq_foldl_simPairs, equiv_foldl_ufUnion _ _ hbound]
  constructor
  · refine eqvGen_lift ?_
    intro x y hxy
    rcases hxy with h | h | h
    · rw [equiv_mkUF] at h
      subst h
      exact Relation.EqvGen.refl x
    · obtain ⟨hlt, hn, hsim⟩ := (mem_simPairs items x y).mp h
      exact Relation.EqvGen.rel x y ⟨lt_trans hlt hn, hn, hsim⟩
    · obtain ⟨hlt, hn, hsim⟩ := (mem_simPairs items y x).mp h
      rw [jaccardSimilarity_comm] at hsim
      exact Relation.EqvGen.rel x y ⟨hn, lt_trans hlt hn, hsim⟩
  · refine eqvGen_lift ?_
    intro x y hxy
    obtain ⟨hx, hy, hsim⟩ := hxy
    rcases Nat.lt_trichotomy x y with hlt | heq | hgt
    · exact Relation.EqvGen.rel x y
        (Or.inr (Or.inl ((mem_simPairs items x y).mpr ⟨hlt, hy, hsim⟩)))
    · subst heq
      exact Relation.EqvGen.refl x
    · rw [jaccardSimilarity_comm] at hsim
      exact Relation.EqvGen.rel x y
        (Or.inr (Or.inr ((mem_simPairs items y x).mpr ⟨hgt, hx, hsim⟩)))

theorem inSameCluster_iff_rootD (items : List Item) (i j : Nat)
    (hi : i < items.length) (hj : j < items.length) :
    inSameCluster items i j ↔
      (clusterUF items).rootD i = (clusterUF items).rootD j := by
  unfold inSameCluster clusterIndices
  simp only [List.mem_map]
  constructor
  · rintro ⟨g, ⟨r, _, rfl⟩, hig, hjg⟩
    have h1 := (List.mem_filter.mp hig).2
    have h2 := (List.mem_filter.mp hjg).2
    simp only [decide_eq_true_eq] at h1 h2
    rw [h1, h2]
  · intro h
    refine ⟨(List.range items.length).filter
        (fun k => (clusterUF items).rootD k = (clusterUF items).rootD i),
      ⟨(clusterUF items).rootD i, ?_, rfl⟩, ?_, ?_⟩
    · rw [List.mem_dedup, List.mem_map]
      exact ⟨i, List.mem_range.mpr hi, rfl⟩
    · rw [List.mem_filter]
      exact ⟨List.mem_range.mpr hi, by simp⟩
    · rw [List.mem_filter]
      exact ⟨List.mem_range.mpr hj, by simp [h]⟩

/-- Evaluation rule for `jaccardSimilarity` once the two cardinalities are
known. -/
theorem jaccardSimilarity_eq (a b : List String) (i u : Nat)
    (hne : ¬(a.length = 0 ∨ b.length = 0))
    (hi : (a.toFinset ∩ b.toFinset).card = i)
    (hu : a.toFinset.card + b.toFinset.card - i = u) (hu0 : u ≠ 0) :
    jaccardSimilarity a b = (i : ℚ) / (u : ℚ) := by
  simp only [jaccardSimilarity, if_neg hne, hi, hu, if_neg hu0]

/-! ### C2 helpers: the root groups partition the index range -/

theorem count_filter_key {α κ : Type} [DecidableEq α] [DecidableEq κ]
    (f : α → κ) (xs : List α) (a : α) (r : κ) :
    (xs.filter (fun x => decide (f x = r))).count a
      = if f a = r then xs.count a else 0 := by
  induction xs with
  | nil => simp
  | cons x xs ih =>
    by_cases hx : f x = r
    · rw [List.filter_cons_of_pos (by simpa using hx)]
      by_cases hxa : x = a
      · subst hxa
        simp only [List.count_cons_self, ih, if_pos hx]
      · rw [List.count_cons_of_ne (by simpa using fun h => hxa h.symm), ih,
          List.count_cons_of_ne (by simpa using fun h => hxa h.symm)]
    · rw [List.filter_cons_of_neg (by simpa using hx), ih]
      by_cases hfa : f a = r
      · rw [if_pos hfa, if_pos hfa]
        have hxa : x ≠ a := fun h => hx (h ▸ hfa)
        rw [List.count_cons_of_ne (by simpa using fun h => hxa h.symm)]
      · rw [if_neg hfa, if_neg hfa]

theorem count_flatten_groups {α κ : Type} [DecidableEq α] [DecidableEq κ]
    (f : α → κ) (xs : List α) (a : α) :
    ∀ rs : List κ,
      ((rs.map (fun r => xs.filter (fun x => decide (f x = r)))).flatten).count a
        = rs.count (f a) * xs.count a := by
  intro rs
  induction rs with
  | nil => simp
  | cons r rs ih =>
    rw [List.map_cons, List.flatten_cons, List.count_append, ih, count_filter_key]
    by_cases h : f a = r
    · rw [if_pos h, h, List.count_cons_self, Nat.succ_mul, Nat.add_comm]
    · rw [if_neg h, List.count_cons_of_ne h, Nat.zero_add]

theorem flatten_groups_perm {α κ : Type} [DecidableEq α] [DecidableEq κ]
    (f : α → κ) (xs : List α) :
    ((((xs.map f).dedup).map (fun r => xs.filter (fun x => decide (f x = r)))).flatten).Perm
      xs := by
  rw [List.perm_iff_count]
  intro a
  rw [count_flatten_groups]
  by_cases ha : a ∈ xs
  · have hmem : f a ∈ (xs.map f).dedup := by
      rw [List.mem_dedup, List.mem_map]
      exact ⟨a, ha, rfl⟩
    rw [List.count_eq_one_of_mem (List.nodup_dedup _) hmem, Nat.one_mul]
  · rw [List.count_eq_zero_of_not_mem ha, Nat.mul_zero]

theorem map_getD_range {α : Type} (l : List α) (d : α) :
    (List.range l.length).map (fun i => l.getD i d) = l := by
  induction l with
  | nil => rfl
  | cons a l ih =>
    rw [List.length_cons, List.range_succ_eq_map, List.map_cons, List.map_map]
    simp only [List.getD_cons_zero, Function.comp_def, List.getD_cons_succ]
    rw [ih]

theorem clusterIndices_flatten_perm (items : List Item) :
    ((clusterIndices items).flatten).Perm (List.range items.length) := by
  unfold clusterIndices
  have h := flatten_groups_perm (clusterUF items).rootD (List.range items.length)
  exact h

theorem clusterItems_flatMap_perm (items : List Item) :
    ((clusterItems items).flatMap TopicCluster.items).Perm items := by
  have hflat : ∀ gs : List (List Nat),
      (gs.map (fun g => g.map (fun i => items.getD i default))).flatten
        = gs.flatten.map (fun i => items.getD i default) := by
    intro gs
    induction gs with
    | nil => rfl
    | cons g gs ih => simp [ih]
  have h1 : (clusterItems items).flatMap TopicCluster.items
      = ((clusterIndices items).flatten).map (fun i => items.getD i default) := by
    unfold clusterItems
    rw [List.flatMap_def, List.map_map]
    exact hflat (clusterIndices items)
  rw [h1]
  have h2 := (clusterIndices_flatten_perm items).map (fun i => items.getD i default)
  rw [map_getD_range] at h2
  exact h2

theorem countP_eq_one_of_nodup {κ : Type} [DecidableEq κ] (l : List κ)
    (hnd : l.Nodup) (a : κ) (ha : a ∈ l) :
    l.countP (fun r => decide (a = r)) = 1 := by
  induction l with
  | nil => cases ha
  | cons x l ih =>
    rw [List.countP_cons]
    rcases List.mem_cons.mp ha with heq | hmem
    · subst heq
      have hz : l.countP (fun r => decide (a = r)) = 0 := by
        rw [List.countP_eq_zero]
        intro r hr
        simp only [decide_eq_true_eq]
        exact fun h => (List.nodup_cons.mp hnd).1 (h ▸ hr)
      simp [hz]
    · rw [ih (List.nodup_cons.mp hnd).2 hmem]
      have hne : ¬ (a = x) := fun h => (List.nodup_cons.mp hnd).1 (h ▸ hmem)
      simp [hne]

theorem countP_clusterIndices (items : List Item) (i : Nat) (hi : i < items.length) :
    (clusterIndices items).countP (fun g => decide (i ∈ g)) = 1 := by
  unfold clusterIndices
  rw [List.countP_map]
  have hroot : ∀ r, ((fun g => decide (i ∈ g)) ∘
      (fun r => (List.range items.length).filter
        (fun k => decide ((clusterUF items).rootD k = r)))) r
      = decide ((clusterUF items).rootD i = r) := by
    intro r
    simp only [Function.comp_apply, List.mem_filter, List.mem_range, decide_eq_true_eq]
    by_cases h : (clusterUF items).rootD i = r
    · simp [h, hi]
    · simp [h]
  rw [List.countP_congr (fun r _ => by rw [hroot r])]
  have hmem : (clusterUF items).rootD i ∈
      ((List.range items.length).map (clusterUF items).rootD).dedup := by
    rw [List.mem_dedup, List.mem_map]
    exact ⟨i, List.mem_range.mpr hi, rfl⟩
  exact countP_eq_one_of_nodup _ (List.nodup_dedup _) _ hmem

/-! ### Scoring lemmas -/

theorem velocityScore_eq_clamped_max (vel : Item → ℚ) (cluster : TopicCluster) :
    velocityScore vel cluster
      = min 100 ((cluster.items.map vel).foldl max 0) := by
  unfold velocityScore
  have hstep : (fun acc it => if vel it > acc then vel it else acc)
      = (fun acc it => max acc (vel it)) := by
    funext acc it
    rcases le_or_lt (vel it) acc with h | h
    · rw [if_neg (not_lt.mpr h), max_eq_left h]
    · rw [if_pos h, max_eq_right h.le]
  rw [hstep, ← List.foldl_map vel max]
  rcases le_or_lt ((cluster.items.map vel).foldl max 0) 100 with h | h
  · rw [if_neg (not_lt.mpr h), min_eq_right h]
  · rw [if_pos h, min_eq_left h.le]

theorem foldl_max_nonneg (l : List ℚ) : ∀ acc, 0 ≤ acc → 0 ≤ l.foldl max acc := by
  induction l with
  | nil => intro acc h; exact h
  | cons x l ih =>
    intro acc h
    exact ih _ (le_trans h (le_max_left acc x))

theorem velocityScore_nonneg (vel : Item → ℚ) (cluster : TopicCluster) :
    0 ≤ velocityScore vel cluster := by
  rw [velocityScore_eq_clamped_max]
  exact le_min (by norm_num) (foldl_max_nonneg _ 0 le_rfl)

theorem velocityScore_le_100 (vel : Item → ℚ) (cluster : TopicCluster) :
    velocityScore vel cluster ≤ 100 := by
  rw [velocityScore_eq_clamped_max]
  exact min_le_left _ _

theorem crossScore_nonneg (cluster : TopicCluster) : 0 ≤ crossScore cluster := by
  simp only [crossScore]
  split
  · norm_num
  · positivity

theorem crossScore_le_100 (cluster : TopicCluster) : crossScore cluster ≤ 100 := by
  simp only [crossScore]
  split
  · norm_num
  · linarith [not_lt.mp (by assumption : ¬ ((cluster.sources.card : ℚ) * 20 > 100))]

theorem absScale_nonneg (q : ℚ) (hq : 0 ≤ q) : 0 ≤ absScale q := by
  unfold absScale
  split_ifs with h1 h2 h3
  · norm_num
  · have h : (0:ℚ) ≤ (q - 100) / 900 := div_nonneg (by linarith) (by norm_num)
    nlinarith
  · have h : (0:ℚ) ≤ (q - 10) / 90 := div_nonneg (by linarith) (by norm_num)
    nlinarith
  · have h : q / 10 * 20 = 2 * q := by ring
    linarith [h ▸ mul_nonneg (by norm_num : (0:ℚ) ≤ 2) hq]

theorem absScale_le_100 (q : ℚ) : absScale q ≤ 100 := by
  unfold absScale
  split_ifs with h1 h2 h3
  · norm_num
  · have h : (q - 100) / 900 ≤ 1 := by
      rw [div_le_one (by norm_num : (0:ℚ) < 900)]
      linarith
    nlinarith
  · have h : (q - 10) / 90 ≤ 1 := by
      rw [div_le_one (by norm_num : (0:ℚ) < 90)]
      linarith
    nlinarith
  · have h : q / 10 * 20 = 2 * q := by ring
    push_neg at h3
    linarith [h]

theorem absoluteScore_nonneg (cluster : TopicCluster) : 0 ≤ absoluteScore cluster := by
  unfold absoluteScore
  split
  · rename_i h0
    apply absScale_nonneg
    apply div_nonneg
    · exact_mod_cast le_of_lt h0
    · positivity
  · exact le_rfl

theorem absoluteScore_le_100 (cluster : TopicCluster) : absoluteScore cluster ≤ 100 := by
  unfold absoluteScore
  split
  · exact absScale_le_100 _
  · norm_num

/-! ### Velocity lemmas -/

theorem getLastD_mem {α : Type} :
    ∀ (l : List α) (d : α), l.getLastD d = d ∨ l.getLastD d ∈ l := by
  intro l
  induction l with
  | nil => intro d; exact Or.inl rfl
  | cons a t ih =>
    intro d
    rw [List.getLastD_cons]
    rcases ih a with h | h
    · right
      rw [h]
      exact List.mem_cons_self a t
    · exact Or.inr (List.mem_cons_of_mem a h)

theorem sorted_headD_le (l : List Snapshot)
    (hp : l.Pairwise (fun a b => a.checkedAt ≤ b.checkedAt)) :
    ∀ s ∈ l, (l.headD default).checkedAt ≤ s.checkedAt := by
  cases l with
  | nil => intro s hs; cases hs
  | cons x t =>
    intro s hs
    rw [List.headD_cons]
    rcases List.mem_cons.mp hs with rfl | hmem
    · exact le_rfl
    · exact (List.pairwise_cons.mp hp).1 s hmem

theorem sorted_le_getLastD :
    ∀ (l : List Snapshot) (d : Snapshot),
      l.Pairwise (fun a b => a.checkedAt ≤ b.checkedAt) →
      ∀ s ∈ l, s.checkedAt ≤ (l.getLastD d).checkedAt := by
  intro l
  induction l with
  | nil => intro d _ s hs; cases hs
  | cons x t ih =>
    intro d hp s hs
    rw [List.getLastD_cons]
    have hx := (List.pairwise_cons.mp hp).1
    have ht := (List.pairwise_cons.mp hp).2
    rcases List.mem_cons.mp hs with rfl | hmem
    · rcases getLastD_mem t s with h | h
      · rw [h]
      · exact hx _ h
    · exact ih x ht s hmem

theorem GetSnapshots_pairwise (history : List Snapshot) (since : ℚ) :
    (GetSnapshots history since).Pairwise (fun a b => a.checkedAt ≤ b.checkedAt) := by
  unfold GetSnapshots
  have h := @List.sorted_mergeSort Snapshot
    (fun a b : Snapshot => decide (a.checkedAt ≤ b.checkedAt))
    (fun a b c h1 h2 => by
      simp only [decide_eq_true_eq] at h1 h2 ⊢
      exact le_trans h1 h2)
    (fun a b => by
      simp only [Bool.or_eq_true, decide_eq_true_eq]
      exact le_total a.checkedAt b.checkedAt)
    (history.filter (fun s => decide (since ≤ s.checkedAt)))
  exact h.imp (fun hab => of_decide_eq_true hab)

theorem GetSnapshots_mem_since (history : List Snapshot) (since : ℚ) :
    ∀ s ∈ GetSnapshots history since, since ≤ s.checkedAt := by
  intro s hs
  unfold GetSnapshots at hs
  have hmem := (List.mergeSort_perm
    (history.filter (fun s => decide (since ≤ s.checkedAt))) _).mem_iff.mp hs
  exact of_decide_eq_true (List.mem_filter.mp hmem).2

/-! ### Detect lemmas -/

theorem Detect_listItems_error (e : Engine) (err : String)
    (h : e.store.listItemsResult = .error err) :
    Detect e = .error ("list recent items: " ++ err) := by
  unfold Detect
  rw [h]

theorem Detect_empty (e : Engine) (h : e.store.listItemsResult = .ok []) :
    Detect e = .ok [] := by
  unfold Detect
  rw [h]
  rfl

theorem Detect_clearTrends_error (e : Engine) (items0 : List Item) (err : String)
    (hl : e.store.listItemsResult = .ok items0) (h0 : items0.length ≠ 0)
    (hc : e.store.clearTrendsResult = .error err) :
    Detect e = .error ("clear trends: " ++ err) := by
  simp only [Detect, hl, if_neg h0, hc]

theorem Detect_ok (e : Engine) (items0 : List Item)
    (hl : e.store.listItemsResult = .ok items0) (h0 : items0.length ≠ 0)
    (hc : e.store.clearTrendsResult = .ok ()) :
    Detect e = if (detectItems e items0).length = 0 then .ok []
      else .ok (sortTrends (upsertLoop e (clusterItems (detectItems e items0)))) := by
  simp only [Detect, hl, if_neg h0, hc]

theorem Detect_ok_exists (e : Engine) (items0 : List Item)
    (hl : e.store.listItemsResult = .ok items0)
    (hc : e.store.clearTrendsResult = .ok ()) :
    ∃ ts, Detect e = .ok ts := by
  by_cases h0 : items0.length = 0
  · rw [List.length_eq_zero] at h0
    subst h0
    exact ⟨[], Detect_empty e hl⟩
  · rw [Detect_ok e items0 hl h0 hc]
    by_cases h1 : (detectItems e items0).length = 0
    · rw [if_pos h1]
      exact ⟨[], rfl⟩
    · rw [if_neg h1]
      exact ⟨_, rfl⟩

theorem sortTrends_sorted (l : List Trend) :
    (sortTrends l).Pairwise (fun a b => b.score ≤ a.score) := by
  unfold sortTrends
  have h := @List.sorted_mergeSort Trend (fun a b => decide (b.score ≤ a.score))
    (fun a b c h1 h2 => by
      simp only [decide_eq_true_eq] at h1 h2 ⊢
      exact le_trans h2 h1)
    (fun a b => by
      simp only [Bool.or_eq_true, decide_eq_true_eq]
      exact le_total b.score a.score)
    l
  exact h.imp (fun hab => of_decide_eq_true hab)

theorem Detect_ok_sorted (e : Engine) (ts : List Trend) (h : Detect e = .ok ts) :
    ts.Pairwise (fun a b => b.score ≤ a.score) := by
  unfold Detect at h
  rcases hl : e.store.listItemsResult with err | items0 <;> simp only [hl] at h
  · cases h
  · by_cases h0 : items0.length = 0
    · rw [if_pos h0] at h
      cases h
      exact List.Pairwise.nil
    · rw [if_neg h0] at h
      rcases hc : e.store.clearTrendsResult with err | u <;> simp only [hc] at h
      · cases h
      · split at h
        · cases h
          exact List.Pairwise.nil
        · cases h
          exact sortTrends_sorted _

theorem rootD_mkUF (n a : Nat) : (mkUF n).rootD a = a := by
  induction n with
  | zero => exact Batteries.UnionFind.rootD_empty
  | succ n ih =>
    show ((mkUF n).push).rootD a = a
    rw [Batteries.UnionFind.root_push]
    exact ih

theorem clusterIndices_singleton (it : Item) : clusterIndices [it] = [[0]] := by
  have huf : clusterUF [it] = mkUF 1 := rfl
  have hr : List.range 1 = [0] := rfl
  unfold clusterIndices
  simp [huf, rootD_mkUF, hr]

theorem clusterItems_singleton (it : Item) :
    clusterItems [it] = [mkCluster [it] [0]] := by
  unfold clusterItems
  rw [clusterIndices_singleton]
  rfl

end Airadar

/-- C1: two items land in the same topic cluster exactly when they are
connected, directly or transitively, by pairwise title-token Jaccard
similarities each ≥ 0.3 (the equivalence closure of the similarity
relation). -/
theorem C1_same_cluster_iff_connected (items : List Airadar.Item) (i j : Nat)
    (hi : i < items.length) (hj : j < items.length) :
    Airadar.inSameCluster items i j ↔ Relation.EqvGen (Airadar.simRel items) i j := by
  rw [Airadar.inSameCluster_iff_rootD items i j hi hj]
  exact Airadar.equiv_clusterUF items i j

/-- Witness for C1: the two GPT-5 items are similar (Jaccard 1/2 ≥ 0.3),
hence clustered together. -/
theorem C1_same_cluster_iff_connected_witness :
    Airadar.inSameCluster demoItems 0 1 := by
  have hsim : Airadar.jaccardSimilarity (Airadar.tokensOf demoItems 0)
      (Airadar.tokensOf demoItems 1) ≥ 3/10 := by
    have h0 : Airadar.tokensOf demoItems 0 = ["openai", "releases", "gpt"] := by decide
    have h1 : Airadar.tokensOf demoItems 1 = ["gpt", "launched", "openai"] := by decide
    rw [h0, h1,
      Airadar.jaccardSimilarity_eq _ _ 2 4 (by decide) (by decide) (by decide) (by decide)]
    norm_num
  exact (C1_same_cluster_iff_connected demoItems 0 1 (by decide) (by decide)).mpr
    (Relation.EqvGen.rel 0 1 ⟨by decide, by decide, hsim⟩)

/-- C2: the clusters partition the input: the concatenation of all cluster
item lists is a permutation of the input list (nothing lost, nothing
duplicated), and every input position lies in exactly one index group. -/
theorem C2_clusters_partition (items : List Airadar.Item) :
    ((Airadar.clusterItems items).flatMap Airadar.TopicCluster.items).Perm items ∧
    ∀ i, i < items.length →
      (Airadar.clusterIndices items).countP (fun g => decide (i ∈ g)) = 1 :=
  ⟨Airadar.clusterItems_flatMap_perm items, fun i hi => Airadar.countP_clusterIndices items i hi⟩

/-- Witness for C2 on the three-item scenario. -/
theorem C2_clusters_partition_witness :
    ((Airadar.clusterItems demoItems).flatMap Airadar.TopicCluster.items).Perm demoItems ∧
    (Airadar.clusterIndices demoItems).countP (fun g => decide (0 ∈ g)) = 1 :=
  ⟨(C2_clusters_partition demoItems).1,
   (C2_clusters_partition demoItems).2 0 (by decide)⟩

/-- C9: `jaccardSimilarity` is symmetric, returns 0 whenever either token
set is empty, and returns exactly 1 for two identical non-empty token
sets. -/
theorem C9_jaccard_symm_empty_self :
    (∀ a b : List String, Airadar.jaccardSimilarity a b = Airadar.jaccardSimilarity b a) ∧
    (∀ a b : List String, a = [] ∨ b = [] →
      Airadar.jaccardSimilarity a b = 0) ∧
    (∀ a : List String, a ≠ [] → Airadar.jaccardSimilarity a a = 1) := by
  refine ⟨Airadar.jaccardSimilarity_comm, ?_, Airadar.jaccardSimilarity_self⟩
  rintro a b (rfl | rfl)
  · exact Airadar.jaccardSimilarity_empty_left b
  · rw [Airadar.jaccardSimilarity_comm]
    exact Airadar.jaccardSimilarity_empty_left a

/-- Witness for C9 at concrete inputs. -/
theorem C9_jaccard_symm_empty_self_witness :
    Airadar.jaccardSimilarity ["gpt", "release"] ["release", "openai"] =
      Airadar.jaccardSimilarity ["release", "openai"] ["gpt", "release"] ∧
    Airadar.jaccardSimilarity [] ["ai"] = 0 ∧
    Airadar.jaccardSimilarity ["ai", "news"] ["ai", "news"] = 1 :=
  ⟨C9_jaccard_symm_empty_self.1 _ _,
   C9_jaccard_symm_empty_self.2.1 [] ["ai"] (Or.inl rfl),
   C9_jaccard_symm_empty_self.2.2 ["ai", "news"] (by decide)⟩

/-- C3 counterexample: with a single item of velocity −20, the claimed
component (the maximum per-item velocity, −20, with no lower clamp) differs
from the code's component, which is 0 because the maximum-accumulator
starts at 0. -/
theorem C3_counterexample :
    Airadar.velocityScore (fun _ => -20) negVelCluster = 0 ∧
    (∀ it ∈ negVelCluster.items, (fun _ => (-20 : ℚ)) it = -20) ∧
    negVelCluster.items ≠ [] ∧
    Airadar.velocityScore (fun _ => -20) negVelCluster ≠ -20 := by
  have h : Airadar.velocityScore (fun _ => -20) negVelCluster = 0 := by
    rw [Airadar.velocityScore_eq_clamped_max]
    show min 100 (max 0 (-20)) = 0
    norm_num
  exact ⟨h, fun it _ => rfl, by simp [negVelCluster], by rw [h]; norm_num⟩

/-- C3 (amended): the velocity component is the per-item maximum clamped to
[0, 100] — the accumulator starts at 0, so a negative maximum never passes
through and the component is never negative. -/
theorem C3_velocity_component_clamped (vel : Airadar.Item → ℚ)
    (cluster : Airadar.TopicCluster) :
    Airadar.velocityScore vel cluster
        = min 100 ((cluster.items.map vel).foldl max 0) ∧
    0 ≤ Airadar.velocityScore vel cluster :=
  ⟨Airadar.velocityScore_eq_clamped_max vel cluster,
   Airadar.velocityScore_nonneg vel cluster⟩

/-- C4: the velocity of an item is (last − first score in the sorted
window)/(elapsed hours), where the window holds exactly the snapshots with
`checked_at ≥ since` in ascending order; 0 when the window has fewer than
two snapshots or spans less than 0.1 h; negative outputs pass through
unfloored as the equation shows. -/
theorem C4_item_velocity (history : List Airadar.Snapshot) (since : ℚ)
    (w : List Airadar.Snapshot) (hw : w = Airadar.GetSnapshots history since) :
    (∀ s ∈ w, since ≤ s.checkedAt) ∧
    (w.length < 2 → Airadar.itemVelocity (.ok w) = 0) ∧
    (2 ≤ w.length →
      (∀ s ∈ w, (w.headD default).checkedAt ≤ s.checkedAt ∧
          s.checkedAt ≤ (w.getLastD default).checkedAt) ∧
      ((w.getLastD default).checkedAt - (w.headD default).checkedAt < 1/10 →
        Airadar.itemVelocity (.ok w) = 0) ∧
      (1/10 ≤ (w.getLastD default).checkedAt - (w.headD default).checkedAt →
        Airadar.itemVelocity (.ok w) =
          (((w.getLastD default).score - (w.headD default).score : Int) : ℚ) /
            ((w.getLastD default).checkedAt - (w.headD default).checkedAt))) := by
  subst hw
  refine ⟨Airadar.GetSnapshots_mem_since history since, ?_, ?_⟩
  · intro hlen
    simp only [Airadar.itemVelocity]
    rw [if_pos hlen]
  · intro hlen
    have hp := Airadar.GetSnapshots_pairwise history since
    refine ⟨?_, ?_, ?_⟩
    · intro s hs
      exact ⟨Airadar.sorted_headD_le _ hp s hs,
        Airadar.sorted_le_getLastD _ default hp s hs⟩
    · intro hfast
      simp only [Airadar.itemVelocity]
      rw [if_neg (Nat.not_lt.mpr hlen), if_pos hfast]
    · intro hslow
      simp only [Airadar.itemVelocity]
      rw [if_neg (Nat.not_lt.mpr hlen), if_neg (not_lt.mpr hslow)]

/-- Witness for C4: on the declining history the velocity is −20 points per
hour, not floored to 0. -/
theorem C4_item_velocity_witness :
    Airadar.itemVelocity (.ok (Airadar.GetSnapshots demoHistory (-6))) = -20 := by
  have hwin : Airadar.GetSnapshots demoHistory (-6) = demoHistory := by
    unfold Airadar.GetSnapshots
    rw [List.filter_eq_self.mpr (by decide)]
    exact List.mergeSort_of_sorted (by decide)
  have h := ((C4_item_velocity demoHistory (-6) _ rfl).2.2 (by rw [hwin]; decide)).2.2
  rw [hwin] at h ⊢
  rw [h (by norm_num [demoHistory])]
  norm_num [demoHistory]

/-- C5: the absolute component follows the piecewise scale of the cluster's
mean raw score: 0 at mean 0, `avg/10*20` on (0,10], `20+(avg-10)/90*40` on
(10,100], `60+(avg-100)/900*40` on (100,1000], and 100 above 1000; in
particular a mean of 100 yields 60 and a mean of 1000 yields 100. -/
theorem C5_absolute_component (cluster : Airadar.TopicCluster)
    (hne : cluster.items ≠ []) (avg : ℚ)
    (havg : avg = (cluster.totalScore : ℚ) / (cluster.items.length : ℚ)) :
    (avg = 0 → Airadar.absoluteScore cluster = 0) ∧
    (0 < avg → avg ≤ 10 → Airadar.absoluteScore cluster = avg / 10 * 20) ∧
    (10 < avg → avg ≤ 100 →
      Airadar.absoluteScore cluster = 20 + (avg - 10) / 90 * 40) ∧
    (100 < avg → avg ≤ 1000 →
      Airadar.absoluteScore cluster = 60 + (avg - 100) / 900 * 40) ∧
    (1000 < avg → Airadar.absoluteScore cluster = 100) ∧
    (avg = 100 → Airadar.absoluteScore cluster = 60) ∧
    (avg = 1000 → Airadar.absoluteScore cluster = 100) := by
  have hlen : 0 < (cluster.items.length : ℚ) := by
    exact_mod_cast List.length_pos.mpr hne
  have htot : ∀ hpos : 0 < avg, cluster.totalScore > 0 := by
    intro hpos
    rw [havg] at hpos
    have := (div_pos_iff_of_pos_right hlen).mp hpos
    exact_mod_cast this
  have habs : ∀ hpos : 0 < avg, Airadar.absoluteScore cluster = Airadar.absScale avg := by
    intro hpos
    unfold Airadar.absoluteScore
    rw [if_pos (htot hpos), ← havg]
  have h1 : 0 < avg → avg ≤ 10 → Airadar.absoluteScore cluster = avg / 10 * 20 := by
    intro hpos hle
    rw [habs hpos]
    unfold Airadar.absScale
    rw [if_neg (by linarith), if_neg (by linarith), if_neg (by linarith)]
  have h2 : 10 < avg → avg ≤ 100 →
      Airadar.absoluteScore cluster = 20 + (avg - 10) / 90 * 40 := by
    intro hgt hle
    rw [habs (by linarith)]
    unfold Airadar.absScale
    rw [if_neg (by linarith), if_neg (by linarith), if_pos (by linarith)]
  have h3 : 100 < avg → avg ≤ 1000 →
      Airadar.absoluteScore cluster = 60 + (avg - 100) / 900 * 40 := by
    intro hgt hle
    rw [habs (by linarith)]
    unfold Airadar.absScale
    rw [if_neg (by linarith), if_pos (by linarith)]
  have h4 : 1000 < avg → Airadar.absoluteScore cluster = 100 := by
    intro hgt
    rw [habs (by linarith)]
    unfold Airadar.absScale
    rw [if_pos (by linarith)]
  refine ⟨?_, h1, h2, h3, h4, ?_, ?_⟩
  · intro h0
    have hz : (cluster.totalScore : ℚ) = 0 := by
      rw [havg] at h0
      rcases div_eq_zero_iff.mp h0 with h | h
      · exact h
      · exact absurd h (by positivity)
    unfold Airadar.absoluteScore
    rw [if_neg]
    intro hpos
    rw [show (cluster.totalScore : ℚ) = ((cluster.totalScore : Int) : ℚ) from rfl] at hz
    have : cluster.totalScore = 0 := by exact_mod_cast hz
    omega
  · intro h100
    rw [h2 (by rw [h100]; norm_num) (by rw [h100]), h100]
    norm_num
  · intro h1000
    rw [h3 (by rw [h1000]; norm_num) (by rw [h1000]), h1000]
    norm_num

/-- Witness for C5: a cluster mean of 100 yields exactly 60. -/
theorem C5_absolute_component_witness :
    Airadar.absoluteScore meanHundredCluster = 60 := by
  have h := (C5_absolute_component meanHundredCluster (by simp [meanHundredCluster]) 100
    (by norm_num [meanHundredCluster])).2.2.2.2.2.1
  exact h rfl

/-- C10: whenever the configured weights sum to zero the defaults
0.3/0.5/0.2 are substituted, and under those default weights the composite
score of a nonempty cluster always lies in [0, 100] — in particular it is
never negative, whatever the per-item velocities are. -/
theorem C10_default_weights_score_bounds (v c a : ℚ) (h : v + c + a = 0)
    (vel : Airadar.Item → ℚ) (cluster : Airadar.TopicCluster)
    (_hne : cluster.items ≠ []) :
    Airadar.NewEngineWeights v c a = ⟨3/10, 1/2, 1/5⟩ ∧
    0 ≤ Airadar.scoreCluster (Airadar.NewEngineWeights v c a) vel cluster ∧
    Airadar.scoreCluster (Airadar.NewEngineWeights v c a) vel cluster ≤ 100 := by
  have hw : Airadar.NewEngineWeights v c a = ⟨3/10, 1/2, 1/5⟩ := by
    unfold Airadar.NewEngineWeights
    rw [if_pos h]
  have hcross0 := Airadar.crossScore_nonneg cluster
  have hcross1 := Airadar.crossScore_le_100 cluster
  have hvel0 := Airadar.velocityScore_nonneg vel cluster
  have hvel1 := Airadar.velocityScore_le_100 vel cluster
  have habs0 := Airadar.absoluteScore_nonneg cluster
  have habs1 := Airadar.absoluteScore_le_100 cluster
  refine ⟨hw, ?_, ?_⟩
  · rw [hw]
    unfold Airadar.scoreCluster
    simp only
    linarith
  · rw [hw]
    unfold Airadar.scoreCluster
    simp only
    linarith

/-- Witness for C10: zero configured weights, a one-item cluster and a
negative velocity still give a score within [0, 100]. -/
theorem C10_default_weights_score_bounds_witness :
    0 ≤ Airadar.scoreCluster (Airadar.NewEngineWeights 0 0 0)
        (fun _ => -50) negVelCluster ∧
    Airadar.scoreCluster (Airadar.NewEngineWeights 0 0 0)
        (fun _ => -50) negVelCluster ≤ 100 :=
  ⟨(C10_default_weights_score_bounds 0 0 0 (by norm_num) (fun _ => -50) negVelCluster
      (by simp [negVelCluster])).2.1,
   (C10_default_weights_score_bounds 0 0 0 (by norm_num) (fun _ => -50) negVelCluster
      (by simp [negVelCluster])).2.2⟩

/-- C6: `Detect` returns trends sorted by score descending, and an empty
result with no error when no items are available. -/
theorem C6_detect_sorted_and_empty (e : Airadar.Engine) :
    (e.store.listItemsResult = .ok [] → Airadar.Detect e = .ok []) ∧
    (∀ ts, Airadar.Detect e = .ok ts →
      ts.Pairwise (fun a b => b.score ≤ a.score)) :=
  ⟨Airadar.Detect_empty e, Airadar.Detect_ok_sorted e⟩

/-- Witness for C6: with no items, `Detect` yields `.ok []`, which is
sorted. -/
theorem C6_detect_sorted_and_empty_witness :
    Airadar.Detect emptyEngine = .ok [] ∧
    ([] : List Airadar.Trend).Pairwise (fun a b => b.score ≤ a.score) :=
  ⟨(C6_detect_sorted_and_empty emptyEngine).1 rfl,
   (C6_detect_sorted_and_empty emptyEngine).2 []
     ((C6_detect_sorted_and_empty emptyEngine).1 rfl)⟩

/-- C7 counterexample: when the LLM responds with zero results, `Detect`
returns an empty trend list instead of continuing with the original,
unfiltered item set — the unfiltered cycle would produce one trend. -/
theorem C7_counterexample :
    Airadar.Detect zeroResultEngine = .ok [] ∧
    Airadar.Detect { zeroResultEngine with llm := none }
      = .ok [Airadar.mkTrend { zeroResultEngine with llm := none }
          (Airadar.mkCluster [oneItem] [0])] ∧
    Airadar.Detect zeroResultEngine
      ≠ Airadar.Detect { zeroResultEngine with llm := none } := by
  have h1 : Airadar.Detect zeroResultEngine = .ok [] := rfl
  have h2 : Airadar.Detect { zeroResultEngine with llm := none }
      = .ok [Airadar.mkTrend { zeroResultEngine with llm := none }
          (Airadar.mkCluster [oneItem] [0])] := by
    rw [Airadar.Detect_ok _ [oneItem] rfl (by decide) rfl]
    have hitems : Airadar.detectItems { zeroResultEngine with llm := none } [oneItem]
        = [oneItem] := rfl
    rw [hitems, if_neg (by decide), Airadar.clusterItems_singleton]
    have hup : Airadar.upsertLoop { zeroResultEngine with llm := none }
        [Airadar.mkCluster [oneItem] [0]]
        = [Airadar.mkTrend { zeroResultEngine with llm := none }
            (Airadar.mkCluster [oneItem] [0])] := rfl
    rw [hup]
    unfold Airadar.sortTrends
    rw [List.mergeSort_of_sorted (List.pairwise_singleton _ _)]
  refine ⟨h1, h2, ?_⟩
  rw [h1, h2]
  simp

/-- C7 (amended): when the LLM evaluation call itself fails (network
error, non-2xx, unparseable payload) `Detect` behaves exactly as with the
LLM stage disabled, i.e. continues on the original unfiltered items; when
the call succeeds with zero results `Detect` instead ends the cycle with
an empty, error-free result; and with a healthy store `Detect` never
returns an error, whatever the LLM stage does. -/
theorem C7_llm_failure_modes (e : Airadar.Engine) :
    (∀ eval items0 err, e.llm = some eval → e.store.listItemsResult = .ok items0 →
      eval items0 = .error err →
      Airadar.Detect e = Airadar.Detect { e with llm := none }) ∧
    (∀ eval items0, e.llm = some eval → e.store.listItemsResult = .ok items0 →
      items0.length ≠ 0 → e.store.clearTrendsResult = .ok () →
      eval items0 = .ok [] → Airadar.Detect e = .ok []) ∧
    (∀ items0, e.store.listItemsResult = .ok items0 →
      e.store.clearTrendsResult = .ok () →
      ∃ ts, Airadar.Detect e = .ok ts) := by
  refine ⟨?_, ?_, ?_⟩
  · intro eval items0 err hllm hlist heval
    have hitems : Airadar.detectItems e items0 = items0 := by
      unfold Airadar.detectItems
      rw [hllm]
      show (Airadar.llmFilter eval items0).1 = items0
      unfold Airadar.llmFilter
      rw [heval]
    have hitems' : Airadar.detectItems { e with llm := none } items0 = items0 := rfl
    simp only [Airadar.Detect, hlist, hitems, hitems']
    rfl
  · intro eval items0 hllm hlist h0 hclear heval
    have hitems : Airadar.detectItems e items0 = [] := by
      unfold Airadar.detectItems
      rw [hllm]
      show (Airadar.llmFilter eval items0).1 = []
      unfold Airadar.llmFilter
      rw [heval]
      rfl
    rw [Airadar.Detect_ok e items0 hlist h0 hclear, hitems]
    rfl
  · intro items0 hlist hclear
    exact Airadar.Detect_ok_exists e items0 hlist hclear

/-- Witness for C7: a failing LLM call leaves `Detect` identical to the
LLM-disabled run, and the zero-results engine completes without error. -/
theorem C7_llm_failure_modes_witness :
    Airadar.Detect failingLLMEngine
      = Airadar.Detect { failingLLMEngine with llm := none } ∧
    Airadar.Detect zeroResultEngine = .ok [] :=
  ⟨(C7_llm_failure_modes failingLLMEngine).1 _ [oneItem] "llm status 500" rfl rfl rfl,
   (C7_llm_failure_modes zeroResultEngine).2.1 _ [oneItem] rfl rfl (by decide) rfl rfl⟩

/-- C8 counterexample: snapshot reads and trend upserts fail throughout
the cycle, yet `Detect` completes with `.ok []` instead of aborting with
the store error. -/
theorem C8_counterexample :
    failingRWEngine.store.getSnapshotsResult oneItem.id = .error "db locked" ∧
    (∀ t, failingRWEngine.store.upsertTrendResult t = .error "db locked") ∧
    Airadar.Detect failingRWEngine = .ok [] := by
  refine ⟨rfl, fun t => rfl, ?_⟩
  rw [Airadar.Detect_ok _ [oneItem] rfl (by decide) rfl]
  have hitems : Airadar.detectItems failingRWEngine [oneItem] = [oneItem] := rfl
  rw [hitems, if_neg (by decide), Airadar.clusterItems_singleton]
  have hup : Airadar.upsertLoop failingRWEngine [Airadar.mkCluster [oneItem] [0]]
      = [] := rfl
  rw [hup]
  unfold Airadar.sortTrends
  rw [List.mergeSort_nil]

/-- C8 (amended): only the item-listing and trend-clearing store calls are
fatal to the cycle and propagate as `Detect`'s error; a snapshot-read
failure degrades that item's velocity to 0 and, once listing and clearing
succeed, `Detect` returns a result even when snapshot reads or trend
upserts fail. -/
theorem C8_store_errors (e : Airadar.Engine) :
    (∀ err, e.store.listItemsResult = .error err →
      Airadar.Detect e = .error ("list recent items: " ++ err)) ∧
    (∀ items0 err, e.store.listItemsResult = .ok items0 → items0.length ≠ 0 →
      e.store.clearTrendsResult = .error err →
      Airadar.Detect e = .error ("clear trends: " ++ err)) ∧
    (∀ items0, e.store.listItemsResult = .ok items0 →
      e.store.clearTrendsResult = .ok () →
      ∃ ts, Airadar.Detect e = .ok ts) ∧
    (∀ err, Airadar.itemVelocity (.error err) = 0) := by
  refine ⟨?_, ?_, ?_, ?_⟩
  · intro err h
    exact Airadar.Detect_listItems_error e err h
  · intro items0 err hl h0 hc
    exact Airadar.Detect_clearTrends_error e items0 err hl h0 hc
  · intro items0 hl hc
    exact Airadar.Detect_ok_exists e items0 hl hc
  · intro err
    rfl

/-- Witness for C8: a failing item listing aborts the cycle with the
wrapped error, and a failing snapshot read yields velocity 0. -/
theorem C8_store_errors_witness :
    Airadar.Detect deadListEngine = .error ("list recent items: " ++ "disk io") ∧
    Airadar.itemVelocity (.error "db locked") = 0 :=
  ⟨(C8_store_errors deadListEngine).1 "disk io" rfl,
   (C8_store_errors deadListEngine).2.2.2 "db locked"⟩
